import Mathlib

set_option maxHeartbeats 1000000

namespace Stock

/-!
Shallow embedding of the core of the stock-tui repository:
the fetch client (src/internal/data/http.go), the event-loop orchestrator
(src/internal/app/app.go), the chart renderer's numeric core
(src/internal/ui/chart/chart.go) and the watchlist row update
(src/internal/ui/watchlist/watchlist.go).  Go float64 arithmetic is embedded
as exact rational arithmetic; Go machine integers stay within small ranges in
all modelled code paths and are embedded as Nat/Int.
-/

/-- One network attempt outcome as seen by `fetch`: a transport-level failure
(an `http.Client.Do` error or a body-read error), identified by a numeric
code, or an HTTP response carrying its status code, its `Retry-After` header
value (`""` when the header is absent, which is how Go's `Header.Get`
reports absence) and its body bytes. -/
inductive Outcome where
  | transport (code : Nat)
  | resp (status : Nat) (retryAfterHdr : String) (body : List Nat)
deriving DecidableEq

/-- Errors produced by `fetch`, mirroring src/internal/data/http.go:
a transport error, `httpError` (carrying the status code), `RateLimitError`
(carrying the retry-after `time.Duration`, an int64 count of nanoseconds,
which can be zero or negative when the header parses to such a value), the
wrapping `after %d retries: %w` error, and the final bare `fetch failed`
return (reachable in Go only when the loop body never runs). -/
inductive FetchError where
  | transportErr (code : Nat)
  | httpStatus (status : Nat)
  | rateLimited (retryAfterNs : Int)
  | exhausted (retries : Nat) (cause : FetchError)
  | fetchFailed
deriving DecidableEq

/-- Result value of `fetch`: the body bytes on success, an error otherwise
(the Go `([]byte, error)` pair). -/
inductive FRes where
  | ok (body : List Nat)
  | err (e : FetchError)
deriving DecidableEq

/-- `fetchOptions` from http.go: `MaxRetries` (retries beyond the first
attempt) and `BaseDelay` in milliseconds. -/
structure FetchOptions where
  maxRetries : Nat
  baseDelay : Nat
deriving DecidableEq

/-- `defaultFetchOptions` from http.go: 3 retries, 500ms base delay. -/
def defaultFetchOptions : FetchOptions :=
  { maxRetries := 3, baseDelay := 500 }

/-- The numeric value of a digit character list (most significant first). -/
def digitsToNat (cs : List Char) : Nat :=
  cs.foldl (fun n c => n * 10 + (c.toNat - 48)) 0

/-- `leadingInt` from Go's time package (called by `ParseDuration`):
consume leading digits into a uint64, failing on overflow.  The literals
are Go's `1<<63/10` and `1<<63`; the guarded accumulator never exceeds
uint64 range, so Nat arithmetic is exact. -/
def leadingInt : List Char → Nat → Option (Nat × List Char)
  | [], x => some (x, [])
  | c :: cs, x =>
    if c.isDigit then
      if 922337203685477580 < x then none
      else if 9223372036854775808 < x * 10 + (c.toNat - 48) then none
      else leadingInt cs (x * 10 + (c.toNat - 48))
    else some (x, c :: cs)

/-- `leadingFraction` from Go's time package: consume digits after the
decimal point, keeping the consumed value and its scale (a power of 10,
exact in float64 throughout the guarded range) and silently dropping
further digits once the accumulator would overflow. -/
def leadingFraction : List Char → Nat → Nat → Bool → Nat × Nat × List Char
  | [], x, scale, _ => (x, scale, [])
  | c :: cs, x, scale, overflow =>
    if c.isDigit then
      if overflow then leadingFraction cs x scale overflow
      else if 922337203685477580 < x then leadingFraction cs x scale true
      else if 9223372036854775808 < x * 10 + (c.toNat - 48) then
        leadingFraction cs x scale true
      else leadingFraction cs (x * 10 + (c.toNat - 48)) (scale * 10) overflow
    else (x, scale, c :: cs)

/-- `unitMap` from Go's time package: nanoseconds per unit. -/
def unitMap : List Char → Option Nat
  | ['n', 's'] => some 1
  | ['u', 's'] => some 1000
  | ['µ', 's'] => some 1000
  | ['μ', 's'] => some 1000
  | ['m', 's'] => some 1000000
  | ['s'] => some 1000000000
  | ['m'] => some 60000000000
  | ['h'] => some 3600000000000
  | _ => none

/-- Whether a character can start or continue a number in `ParseDuration`:
a decimal point or a digit. -/
def isDigitDot (ch : Char) : Bool :=
  decide (ch = '.' ∨ ch.isDigit = true)

/-- The `[-+]?` sign consumption at the top of `ParseDuration`. -/
def stripSign : List Char → Bool × List Char
  | [] => (false, [])
  | c :: cs =>
    if c = '-' then (true, cs)
    else if c = '+' then (false, cs)
    else (false, c :: cs)

/-- The fraction step of one `ParseDuration` term: consume `(\.[0-9]*)?`,
returning (f, scale, remainder, post). -/
def consumeFraction : List Char → Nat × Nat × List Char × Bool
  | '.' :: cs =>
    let t := leadingFraction cs 0 1 false
    (t.1, t.2.1, t.2.2, decide (¬ t.2.2.length = cs.length))
  | s => (0, 1, s, false)

/-- One term (`[0-9]*(\.[0-9]*)?[a-z]+`) of `ParseDuration`: its value in
nanoseconds and the remaining input, `none` on any of the parse errors.
Go's one float64 computation — `uint64(float64(f) * (float64(unit)/scale))`
for the fractional part — is modelled by the exact truncation
`f * unit / scale`; the two agree except on fractional parts long enough
(roughly 16+ digits) for float64 rounding to shift the result by a
nanosecond. -/
def durTerm (s : List Char) : Option (Nat × List Char) :=
  match s with
  | [] => none
  | c :: cs =>
    if isDigitDot c then
      match leadingInt (c :: cs) 0 with
      | none => none
      | some (v, s₂) =>
        if decide (¬ s₂.length = (c :: cs).length) = false ∧
            (consumeFraction s₂).2.2.2 = false then none
        else
          let f := (consumeFraction s₂).1
          let scale := (consumeFraction s₂).2.1
          let s₃ := (consumeFraction s₂).2.2.1
          let unitChars := s₃.takeWhile fun ch => ! isDigitDot ch
          let s₄ := s₃.dropWhile fun ch => ! isDigitDot ch
          if unitChars = [] then none
          else
            match unitMap unitChars with
            | none => none
            | some unit =>
              if 9223372036854775808 / unit < v then none
              else
                let v₂ := v * unit + (if 0 < f then f * unit / scale else 0)
                if 0 < f ∧ 9223372036854775808 < v₂ then none
                else some (v₂, s₄)
    else none

/-- The term loop of `ParseDuration`, accumulating the total `d` with Go's
per-term overflow check.  Fuel bounds the iteration count: every term
consumes at least one character, so the input length suffices and the
fuel-exhaustion branch is unreachable. -/
def durLoop : Nat → List Char → Nat → Option Nat
  | _, [], d => some d
  | 0, _ :: _, _ => none
  | fuel + 1, c :: cs, d =>
    match durTerm (c :: cs) with
    | none => none
    | some (v₂, s₄) =>
      if 9223372036854775808 < d + v₂ then none
      else durLoop fuel s₄ (d + v₂)

/-- `time.ParseDuration` (Go standard library, called by http.go line 95 on
`retryStr + "s"`), modelled over the character list of its input and exact
arithmetic; the result is the `time.Duration` — an int64 count of
nanoseconds — and `none` is a parse error.  Go scans bytes where this model
scans characters, which agrees on ASCII input; the multi-byte micro-sign
units are covered by the unit table exactly as in Go's `unitMap`. -/
def goParseDuration (s : List Char) : Option Int :=
  match stripSign s with
  | (neg, s₂) =>
    if s₂ = ['0'] then some 0
    else if s₂ = [] then none
    else
      match durLoop s₂.length s₂ 0 with
      | none => none
      | some d =>
        if neg then some (-(d : Int))
        else if 9223372036854775807 < d then none
        else some (d : Int)

/-- The Retry-After handling of the 429 branch of `fetch` (http.go lines
90-99): when the header is absent (`""`, which is how Go's `Header.Get`
reports absence) the 60s default stands; otherwise the code parses
`time.ParseDuration(retryStr ++ "s")` and keeps the 60s default exactly
when that parse fails.  The result is in nanoseconds (a `time.Duration`);
note that a successful parse is kept whatever its value, so unit-suffixed
headers such as "2m" (parsed as "2ms") and signed headers such as "-5"
(parsed as -5s) produce small or negative durations rather than the
default. -/
def parseRetryAfter (hdr : String) : Int :=
  if hdr = "" then 60000000000
  else
    match goParseDuration (hdr.data ++ ['s']) with
    | some d => d
    | none => 60000000000

/-- Whether an attempt outcome makes the fetch loop `continue`: any
transport failure, or a response with status ≥ 500 (`httpError.IsRetryable`,
http.go lines 28-30; statuses 429 and 200 leave the loop before this test
and are below 500 anyway). -/
def Outcome.retryable : Outcome → Bool
  | .transport _ => true
  | .resp status _ _ => decide (500 ≤ status)

/-- The error recorded in `lastErr` when an attempt fails retryably. -/
def errOf : Outcome → FetchError
  | .transport code => .transportErr code
  | .resp status _ _ => .httpStatus status

/-- The backoff sleep performed at the top of the loop body for a given
attempt index (http.go lines 60-67): nothing before attempt 0, and
`BaseDelay * 2^(attempt-1)` before every later attempt. -/
def pre (opts : FetchOptions) (attempt : Nat) : List Nat :=
  if attempt = 0 then [] else [opts.baseDelay * 2 ^ (attempt - 1)]

/-- Trace of one `fetch` call: its result, the backoff sleeps it performed
in order, and the number of attempts it made. -/
structure FetchResult where
  res : FRes
  sleeps : List Nat
  attempts : Nat
deriving DecidableEq

/-- The retry loop of `fetch` (http.go lines 58-117), fuelled by the number
of loop iterations remaining (`opts.MaxRetries + 1 - attempt`).  Each
iteration sleeps its backoff (for attempt > 0), consults the environment for
the outcome of the network attempt, and then classifies: transport errors
and read errors record `lastErr` and continue; status 429 returns a
`RateLimitError` at once; any other non-200 status continues when ≥ 500 and
is returned as a fatal `httpError` otherwise; status 200 returns the body.
When the fuel runs out the recorded `lastErr` is wrapped in the
`after %d retries` error.  The context is modelled as never cancelled and
request construction as never failing. -/
def fetchLoop (opts : FetchOptions) (env : Nat → Outcome) :
    Nat → Nat → Option FetchError → FetchResult
  | 0, _, lastErr =>
    { res := .err (match lastErr with
        | some e => .exhausted opts.maxRetries e
        | none => .fetchFailed),
      sleeps := [], attempts := 0 }
  | fuel + 1, attempt, _ =>
    let d := pre opts attempt
    match env attempt with
    | .transport code =>
      let t := fetchLoop opts env fuel (attempt + 1) (some (.transportErr code))
      { res := t.res, sleeps := d ++ t.sleeps, attempts := t.attempts + 1 }
    | .resp status hdr body =>
      if status = 429 then
        { res := .err (.rateLimited (parseRetryAfter hdr)), sleeps := d, attempts := 1 }
      else if ¬ status = 200 then
        if 500 ≤ status then
          let t := fetchLoop opts env fuel (attempt + 1) (some (.httpStatus status))
          { res := t.res, sleeps := d ++ t.sleeps, attempts := t.attempts + 1 }
        else
          { res := .err (.httpStatus status), sleeps := d, attempts := 1 }
      else
        { res := .ok body, sleeps := d, attempts := 1 }

/-- `fetch` (http.go lines 52-118) over an environment assigning each
attempt index the outcome of its network request. -/
def fetch (opts : FetchOptions) (env : Nat → Outcome) : FetchResult :=
  fetchLoop opts env (opts.maxRetries + 1) 0 none

/-- The exponential backoff schedule: the sleeps performed before attempts
1, ..., i. -/
def backoffs (opts : FetchOptions) (i : Nat) : List Nat :=
  (List.range i).map fun j => opts.baseDelay * 2 ^ j

/-- Sleeps contributed by the loop iterations at attempt indices
`attempt, ..., attempt + i - 1`. -/
def preDelays (opts : FetchOptions) : Nat → Nat → List Nat
  | _, 0 => []
  | attempt, i + 1 => pre opts attempt ++ preDelays opts (attempt + 1) i

/-- The `lastErr` value after skipping `i` retryable attempts starting at
index `attempt`. -/
def skipLast (env : Nat → Outcome) (attempt i : Nat)
    (lastErr : Option FetchError) : Option FetchError :=
  if i = 0 then lastErr else some (errOf (env (attempt + (i - 1))))

lemma retryable_resp_le {status : Nat} {hdr : String} {body : List Nat}
    (h : (Outcome.resp status hdr body).retryable = true) : 500 ≤ status := by
  simpa [Outcome.retryable] using h

lemma fetchLoop_transport (opts : FetchOptions) (env : Nat → Outcome)
    (fuel attempt : Nat) (lastErr : Option FetchError) (code : Nat)
    (h : env attempt = .transport code) :
    fetchLoop opts env (fuel + 1) attempt lastErr =
      { res := (fetchLoop opts env fuel (attempt + 1)
          (some (.transportErr code))).res,
        sleeps := pre opts attempt ++ (fetchLoop opts env fuel (attempt + 1)
          (some (.transportErr code))).sleeps,
        attempts := (fetchLoop opts env fuel (attempt + 1)
          (some (.transportErr code))).attempts + 1 } := by
  simp [fetchLoop, h]

lemma fetchLoop_retry5xx (opts : FetchOptions) (env : Nat → Outcome)
    (fuel attempt : Nat) (lastErr : Option FetchError) (status : Nat)
    (hdr : String) (body : List Nat)
    (h : env attempt = .resp status hdr body) (h500 : 500 ≤ status) :
    fetchLoop opts env (fuel + 1) attempt lastErr =
      { res := (fetchLoop opts env fuel (attempt + 1)
          (some (.httpStatus status))).res,
        sleeps := pre opts attempt ++ (fetchLoop opts env fuel (attempt + 1)
          (some (.httpStatus status))).sleeps,
        attempts := (fetchLoop opts env fuel (attempt + 1)
          (some (.httpStatus status))).attempts + 1 } := by
  rw [fetchLoop.eq_def]
  simp [h]
  rw [if_neg (by omega : ¬ status = 429), if_neg (by omega : ¬ status = 200),
    if_pos h500]

lemma fetchLoop_429 (opts : FetchOptions) (env : Nat → Outcome)
    (fuel attempt : Nat) (lastErr : Option FetchError)
    (hdr : String) (body : List Nat)
    (h : env attempt = .resp 429 hdr body) :
    fetchLoop opts env (fuel + 1) attempt lastErr =
      { res := .err (.rateLimited (parseRetryAfter hdr)),
        sleeps := pre opts attempt, attempts := 1 } := by
  simp [fetchLoop, h]

lemma fetchLoop_ok (opts : FetchOptions) (env : Nat → Outcome)
    (fuel attempt : Nat) (lastErr : Option FetchError)
    (hdr : String) (body : List Nat)
    (h : env attempt = .resp 200 hdr body) :
    fetchLoop opts env (fuel + 1) attempt lastErr =
      { res := .ok body, sleeps := pre opts attempt, attempts := 1 } := by
  simp [fetchLoop, h]

lemma fetchLoop_fatal (opts : FetchOptions) (env : Nat → Outcome)
    (fuel attempt : Nat) (lastErr : Option FetchError) (status : Nat)
    (hdr : String) (body : List Nat)
    (h : env attempt = .resp status hdr body)
    (h429 : ¬ status = 429) (h200 : ¬ status = 200) (hlt : status < 500) :
    fetchLoop opts env (fuel + 1) attempt lastErr =
      { res := .err (.httpStatus status), sleeps := pre opts attempt,
        attempts := 1 } := by
  rw [fetchLoop.eq_def]
  simp [h]
  rw [if_neg h429, if_neg h200, if_neg (by omega : ¬ 500 ≤ status)]

/-- Skipping a block of retryable attempts: the loop run from `attempt` with
`i` retryable outcomes ahead equals the run resumed `i` attempts later, with
the corresponding backoff sleeps and attempt count prepended. -/
lemma fetchLoop_skip (opts : FetchOptions) (env : Nat → Outcome) :
    ∀ (i fuel attempt : Nat) (lastErr : Option FetchError), i ≤ fuel →
      (∀ j, j < i → (env (attempt + j)).retryable = true) →
      fetchLoop opts env fuel attempt lastErr =
        { res := (fetchLoop opts env (fuel - i) (attempt + i)
            (skipLast env attempt i lastErr)).res,
          sleeps := preDelays opts attempt i ++
            (fetchLoop opts env (fuel - i) (attempt + i)
              (skipLast env attempt i lastErr)).sleeps,
          attempts := i + (fetchLoop opts env (fuel - i) (attempt + i)
            (skipLast env attempt i lastErr)).attempts } := by
  intro i
  induction i with
  | zero =>
    intro fuel attempt lastErr _ _
    simp [skipLast, preDelays]
  | succ i ih =>
    intro fuel attempt lastErr hle hr
    obtain ⟨f, rfl⟩ : ∃ f, fuel = f + 1 := ⟨fuel - 1, by omega⟩
    have h0 : (env attempt).retryable = true := by
      simpa using hr 0 (Nat.succ_pos i)
    have hshift : ∀ j, j < i → (env (attempt + 1 + j)).retryable = true := by
      intro j hj
      have h := hr (j + 1) (by omega)
      have harr : attempt + 1 + j = attempt + (j + 1) := by omega
      rw [harr]
      exact h
    have hlast : ∀ e : FetchError, errOf (env attempt) = e →
        skipLast env (attempt + 1) i (some e) =
          skipLast env attempt (i + 1) lastErr := by
      intro e he
      cases i with
      | zero => simp [skipLast, ← he]
      | succ k =>
        simp only [skipLast, if_neg (Nat.succ_ne_zero k),
          if_neg (Nat.succ_ne_zero (k + 1))]
        have harr : attempt + 1 + (k + 1 - 1) = attempt + (k + 1 + 1 - 1) := by
          omega
        rw [harr]
    have harith : f + 1 - (i + 1) = f - i := by omega
    have hatt : attempt + 1 + i = attempt + (i + 1) := by omega
    cases henv : env attempt with
    | transport code =>
      have he : errOf (env attempt) = .transportErr code := by
        simp [errOf, henv]
      rw [fetchLoop_transport opts env f attempt lastErr code henv,
        ih f (attempt + 1) (some (.transportErr code)) (by omega) hshift]
      simp only [hlast _ he, harith, hatt, preDelays, List.append_assoc,
        FetchResult.mk.injEq, true_and]
      omega
    | resp status hdr body =>
      have h500 : 500 ≤ status := retryable_resp_le (henv ▸ h0)
      have he : errOf (env attempt) = .httpStatus status := by
        simp [errOf, henv]
      rw [fetchLoop_retry5xx opts env f attempt lastErr status hdr body
        henv h500,
        ih f (attempt + 1) (some (.httpStatus status)) (by omega) hshift]
      simp only [hlast _ he, harith, hatt, preDelays, List.append_assoc,
        FetchResult.mk.injEq, true_and]
      omega

lemma preDelays_shift (opts : FetchOptions) :
    ∀ (i a : Nat), preDelays opts (a + 1) i =
      (List.range i).map fun j => opts.baseDelay * 2 ^ (a + j) := by
  intro i
  induction i with
  | zero => intro a; simp [preDelays]
  | succ i ih =>
    intro a
    rw [preDelays, ih (a + 1), List.range_succ_eq_map, List.map_cons,
      List.map_map]
    simp only [pre, Nat.add_zero, if_neg (Nat.succ_ne_zero a),
      Nat.add_sub_cancel, List.singleton_append]
    have hfun : ((fun j => opts.baseDelay * 2 ^ (a + 1 + j)) :
        Nat → Nat) = (fun j => opts.baseDelay * 2 ^ (a + j)) ∘ Nat.succ := by
      funext j
      have harr : a + 1 + j = a + (j + 1) := by omega
      simp [Function.comp, harr]
    rw [hfun]

lemma preDelays_append_pre (opts : FetchOptions) (i : Nat) :
    preDelays opts 0 i ++ pre opts i = backoffs opts i := by
  cases i with
  | zero => simp [preDelays, pre, backoffs]
  | succ k =>
    rw [preDelays, preDelays_shift opts k 0]
    simp only [pre, if_pos rfl, List.nil_append,
      if_neg (Nat.succ_ne_zero k), Nat.add_sub_cancel, backoffs,
      List.range_succ, List.map_append, List.map_cons, List.map_nil]
    simp

lemma foldl_digits_le (ds : List Char) :
    ∀ x : Nat, x ≤ ds.foldl (fun n c => n * 10 + (c.toNat - 48)) x := by
  induction ds with
  | nil => intro x; simp
  | cons c cs ih =>
    intro x
    rw [List.foldl_cons]
    exact le_trans (by omega) (ih (x * 10 + (c.toNat - 48)))

lemma leadingInt_digits :
    ∀ (ds : List Char) (x : Nat), ds.all Char.isDigit = true →
      ds.foldl (fun n c => n * 10 + (c.toNat - 48)) x ≤
        922337203685477580 →
      leadingInt (ds ++ ['s']) x =
        some (ds.foldl (fun n c => n * 10 + (c.toNat - 48)) x, ['s']) := by
  intro ds
  induction ds with
  | nil =>
    intro x _ _
    simp [leadingInt]
  | cons c cs ih =>
    intro x hall hb
    simp only [List.all_cons, Bool.and_eq_true] at hall
    rw [List.foldl_cons] at hb
    have hf := foldl_digits_le cs (x * 10 + (c.toNat - 48))
    have hx : x ≤ 922337203685477580 := by omega
    have hy : x * 10 + (c.toNat - 48) ≤ 9223372036854775808 := by omega
    rw [List.cons_append]
    rw [leadingInt, if_pos hall.1, if_neg (by omega), if_neg (by omega),
      ih (x * 10 + (c.toNat - 48)) hall.2 hb, List.foldl_cons]

lemma durTerm_digits (c : Char) (cs : List Char)
    (hall : (c :: cs).all Char.isDigit = true)
    (hb : digitsToNat (c :: cs) ≤ 9223372036) :
    durTerm ((c :: cs) ++ ['s']) =
      some (digitsToNat (c :: cs) * 1000000000, []) := by
  have hc : c.isDigit = true := by
    simp only [List.all_cons, Bool.and_eq_true] at hall
    exact hall.1
  have hdig : isDigitDot c = true := by simp [isDigitDot, hc]
  have hlead := leadingInt_digits (c :: cs) 0 hall (by
    unfold digitsToNat at hb
    omega)
  have hdton : (c :: cs).foldl (fun n c => n * 10 + (c.toNat - 48)) 0 =
      digitsToNat (c :: cs) := rfl
  rw [hdton, List.cons_append] at hlead
  have hpre : (decide (¬ (['s'] : List Char).length =
      (c :: (cs ++ ['s'])).length)) = true := by
    simp only [List.length_singleton, List.length_cons, List.length_append,
      decide_eq_true_eq]
    omega
  have hcf : consumeFraction ['s'] = (0, 1, ['s'], false) := by decide
  have htake : (['s'] : List Char).takeWhile
      (fun ch => ! isDigitDot ch) = ['s'] := by decide
  have hdrop : (['s'] : List Char).dropWhile
      (fun ch => ! isDigitDot ch) = [] := by decide
  have hunit : unitMap ['s'] = some 1000000000 := by decide
  have hdiv : ¬ ((9223372036854775808 : Nat) / 1000000000 <
      digitsToNat (c :: cs)) := by
    have h₉ : (9223372036854775808 : Nat) / 1000000000 = 9223372036 := by
      norm_num
    omega
  rw [List.cons_append]
  simp [durTerm, hdig, hlead, hpre, hcf, htake, hdrop, hunit, hdiv]

lemma durLoop_digits (c : Char) (cs : List Char)
    (hall : (c :: cs).all Char.isDigit = true)
    (hb : digitsToNat (c :: cs) ≤ 9223372036) :
    durLoop ((c :: cs) ++ ['s']).length ((c :: cs) ++ ['s']) 0 =
      some (digitsToNat (c :: cs) * 1000000000) := by
  have hterm := durTerm_digits c cs hall hb
  rw [List.cons_append] at hterm
  rw [show ((c :: cs) ++ ['s']).length = ((cs ++ ['s']).length + 1) from by
    simp]
  rw [List.cons_append]
  simp only [durLoop, hterm]
  rw [if_neg (by omega)]
  simp

lemma goParseDuration_digits (c : Char) (cs : List Char)
    (hall : (c :: cs).all Char.isDigit = true)
    (hb : digitsToNat (c :: cs) ≤ 9223372036) :
    goParseDuration ((c :: cs) ++ ['s']) =
      some ((digitsToNat (c :: cs) : Int) * 1000000000) := by
  have hc : c.isDigit = true := by
    simp only [List.all_cons, Bool.and_eq_true] at hall
    exact hall.1
  have hm : ¬ c = '-' := by
    intro h
    rw [h] at hc
    exact absurd hc (by decide)
  have hp : ¬ c = '+' := by
    intro h
    rw [h] at hc
    exact absurd hc (by decide)
  have hstrip : stripSign (c :: (cs ++ ['s'])) =
      (false, c :: (cs ++ ['s'])) := by
    simp [stripSign, hm, hp]
  have hloop := durLoop_digits c cs hall hb
  rw [List.cons_append] at hloop
  have hne0 : ¬ ((c :: (cs ++ ['s'])) = ['0']) := by simp
  have hne2 : ¬ ((c :: (cs ++ ['s'])) = ([] : List Char)) := by simp
  have hd : ¬ ((9223372036854775807 : Nat) <
      digitsToNat (c :: cs) * 1000000000) := by omega
  rw [List.cons_append]
  simp only [goParseDuration, hstrip, if_neg hne0, if_neg hne2, hloop,
    Bool.false_eq_true, if_false, if_neg hd]
  norm_cast

/-- C1 as stated is false: for a 429 response with Retry-After header
"2m" — not a delta-seconds value — the program's
`time.ParseDuration("2m" ++ "s")` call succeeds as "2ms", so the returned
RateLimited error carries 2 milliseconds (2000000 ns): neither the header's
number read in seconds (2s = 2000000000 ns), nor two minutes
(120000000000 ns), nor the 60-second default (60000000000 ns) the claim
prescribes for headers that are not parseable delta-seconds. -/
theorem claimC1_counterexample :
    (fetch defaultFetchOptions (fun _ => .resp 429 "2m" [1])).res =
        .err (.rateLimited 2000000) ∧
      (2000000 : Int) ≠ 60000000000 ∧
      (2000000 : Int) ≠ 2000000000 ∧
      (2000000 : Int) ≠ 120000000000 := by
  refine ⟨?_, by decide, by decide, by decide⟩
  decide

/-- C1 (amended): For every fetch whose response has HTTP status 429
(reached at attempt `i` after only retryable outcomes), fetch returns a
RateLimited error on that very attempt with no retry and no sleep — it
makes exactly `i + 1` attempts and sleeps only the backoffs owed to the
earlier retryable attempts, nothing for the 429 itself.  The error carries
the duration obtained by parsing the header with "s" appended via Go's
ParseDuration — so an in-range delta-seconds header of value N yields N
seconds — or 60 seconds when the header is absent or that parse fails;
headers that are not delta-seconds may still parse (e.g. "2m" as
2 milliseconds) instead of falling back to the default. -/
theorem claimC1_amended_rate_limited (opts : FetchOptions)
    (env : Nat → Outcome) (i : Nat) (hdr : String) (body : List Nat)
    (hi : i ≤ opts.maxRetries)
    (hpre : ∀ j, j < i → (env j).retryable = true)
    (h429 : env i = .resp 429 hdr body) :
    (fetch opts env =
      { res := .err (.rateLimited (parseRetryAfter hdr)),
        sleeps := backoffs opts i,
        attempts := i + 1 }) ∧
    parseRetryAfter "" = 60000000000 ∧
    (¬ hdr = "" → goParseDuration (hdr.data ++ ['s']) = none →
      parseRetryAfter hdr = 60000000000) ∧
    (¬ hdr = "" → hdr.data ≠ [] → hdr.data.all Char.isDigit = true →
      digitsToNat hdr.data ≤ 9223372036 →
      parseRetryAfter hdr = (digitsToNat hdr.data : Int) * 1000000000) := by
  refine ⟨?_, by simp [parseRetryAfter], ?_, ?_⟩
  · have hskip := fetchLoop_skip opts env i (opts.maxRetries + 1) 0 none
      (by omega) (by intro j hj; simpa using hpre j hj)
    rw [show fetch opts env = fetchLoop opts env (opts.maxRetries + 1) 0 none
        from rfl,
      hskip,
      show opts.maxRetries + 1 - i = (opts.maxRetries - i) + 1 from by omega,
      fetchLoop_429 opts env (opts.maxRetries - i) (0 + i)
        (skipLast env 0 i none) hdr body (by simpa using h429)]
    simp only [Nat.zero_add, FetchResult.mk.injEq, true_and, and_true]
    exact preDelays_append_pre opts i
  · intro hne hfail
    simp [parseRetryAfter, hne, hfail]
  · intro hne hdne hall hbound
    obtain ⟨c, cs, hdata⟩ := List.exists_cons_of_ne_nil hdne
    rw [hdata] at hall hbound
    rw [parseRetryAfter, if_neg hne, hdata,
      goParseDuration_digits c cs hall hbound]

/-- Witness for the amended C1: a 429 with header `Retry-After: 30` on the
first attempt returns RateLimited with 30 seconds immediately, with no
sleep and one attempt. -/
theorem claimC1_witness :
    fetch defaultFetchOptions (fun _ => .resp 429 "30" [1]) =
      { res := .err (.rateLimited 30000000000), sleeps := [],
        attempts := 1 } ∧
    parseRetryAfter "30" = 30000000000 := by
  have h := claimC1_amended_rate_limited defaultFetchOptions
    (fun _ => .resp 429 "30" [1]) 0 "30" [1] (by omega)
    (by intro j hj; omega) rfl
  refine ⟨?_, ?_⟩
  · rw [h.1]
    decide
  · have h₄ := h.2.2.2 (by decide) (by decide) (by decide) (by decide)
    rw [h₄]
    decide

/-- C2: With default options (3 retries beyond the first attempt, base delay
500ms), any run of `k ≤ 3` retryable outcomes followed by a 200 makes
exactly `k + 1 ≤ 4` attempts, sleeps the prefix of `500ms, 1000ms, 2000ms`,
and returns the successful body; when all 4 attempts fail retryably it
returns the wrapped exhausted-retries error carrying the last underlying
cause, after the full sleep schedule. -/
theorem claimC2_backoff_schedule (env : Nat → Outcome) :
    (∀ (k : Nat) (hdr : String) (body : List Nat), k ≤ 3 →
      (∀ j, j < k → (env j).retryable = true) →
      env k = .resp 200 hdr body →
      fetch defaultFetchOptions env =
        { res := .ok body, sleeps := List.take k [500, 1000, 2000],
          attempts := k + 1 }) ∧
    ((∀ j, j < 4 → (env j).retryable = true) →
      fetch defaultFetchOptions env =
        { res := .err (.exhausted 3 (errOf (env 3))),
          sleeps := [500, 1000, 2000], attempts := 4 }) := by
  constructor
  · intro k hdr body hk hpre h200
    have hskip := fetchLoop_skip defaultFetchOptions env k 4 0 none
      (by omega) (by intro j hj; simpa using hpre j hj)
    rw [show fetch defaultFetchOptions env =
        fetchLoop defaultFetchOptions env 4 0 none from rfl,
      hskip,
      show 4 - k = (3 - k) + 1 from by omega,
      fetchLoop_ok defaultFetchOptions env (3 - k) (0 + k)
        (skipLast env 0 k none) hdr body (by simpa using h200)]
    simp only [Nat.zero_add, FetchResult.mk.injEq, true_and, and_true]
    rw [preDelays_append_pre defaultFetchOptions k]
    interval_cases k <;> decide
  · intro hpre
    have hskip := fetchLoop_skip defaultFetchOptions env 4 4 0 none
      (by omega) (by intro j hj; simpa using hpre j hj)
    rw [show fetch defaultFetchOptions env =
        fetchLoop defaultFetchOptions env 4 0 none from rfl,
      hskip]
    have h0 : fetchLoop defaultFetchOptions env (4 - 4) (0 + 4)
        (skipLast env 0 4 none) =
        { res := .err (.exhausted 3 (errOf (env 3))), sleeps := [],
          attempts := 0 } := by
      simp [fetchLoop, skipLast, defaultFetchOptions]
    rw [h0]
    simp only [FetchResult.mk.injEq, true_and, and_true]
    decide

/-- Witness for C2: outcomes 503, transport failure, then 200 give 3
attempts, sleeps 500ms and 1000ms, and the third body; four straight 503s
give the exhausted error wrapping the last 503. -/
theorem claimC2_witness :
    fetch defaultFetchOptions
        (fun n => if n = 0 then .resp 503 "" []
          else if n = 1 then .transport 5 else .resp 200 "" [9]) =
      { res := .ok [9], sleeps := [500, 1000], attempts := 3 } ∧
    fetch defaultFetchOptions (fun _ => .resp 503 "" []) =
      { res := .err (.exhausted 3 (.httpStatus 503)),
        sleeps := [500, 1000, 2000], attempts := 4 } := by
  constructor
  · have h := (claimC2_backoff_schedule
      (fun n => if n = 0 then .resp 503 "" []
        else if n = 1 then .transport 5 else .resp 200 "" [9])).1
      2 "" [9] (by omega) (by intro j hj; interval_cases j <;> decide) rfl
    rw [h]
    decide
  · have h := (claimC2_backoff_schedule (fun _ => .resp 503 "" [])).2
      (by intro j hj; decide)
    rw [h]
    decide

/-- C3 as stated is false: a 2xx status other than 200 is not returned as a
success.  A response with status 201 and body `[7]` makes fetch return the
fatal `httpError` for 201, not the body. -/
theorem claimC3_counterexample :
    (fetch defaultFetchOptions (fun _ => .resp 201 "" [7])).res =
        .err (.httpStatus 201) ∧
      (fetch defaultFetchOptions (fun _ => .resp 201 "" [7])).res ≠
        .ok [7] := by
  constructor
  · decide
  · decide

/-- C3 (amended): only a response with status exactly 200 returns the body
as a success; every other status besides 429 and besides status ≥ 500 —
including 2xx statuses other than 200 — is returned immediately as a fatal
error with no further attempt. -/
theorem claimC3_amended_dispatch (opts : FetchOptions)
    (env : Nat → Outcome) (i status : Nat) (hdr : String) (body : List Nat)
    (hi : i ≤ opts.maxRetries)
    (hpre : ∀ j, j < i → (env j).retryable = true)
    (hresp : env i = .resp status hdr body) :
    (status = 200 →
      fetch opts env =
        { res := .ok body, sleeps := backoffs opts i, attempts := i + 1 }) ∧
    (¬ status = 200 → ¬ status = 429 → status < 500 →
      fetch opts env =
        { res := .err (.httpStatus status), sleeps := backoffs opts i,
          attempts := i + 1 }) := by
  have hskip := fetchLoop_skip opts env i (opts.maxRetries + 1) 0 none
    (by omega) (by intro j hj; simpa using hpre j hj)
  constructor
  · intro h200
    subst h200
    rw [show fetch opts env = fetchLoop opts env (opts.maxRetries + 1) 0 none
        from rfl,
      hskip,
      show opts.maxRetries + 1 - i = (opts.maxRetries - i) + 1 from by omega,
      fetchLoop_ok opts env (opts.maxRetries - i) (0 + i)
        (skipLast env 0 i none) hdr body (by simpa using hresp)]
    simp only [Nat.zero_add, FetchResult.mk.injEq, true_and, and_true]
    exact preDelays_append_pre opts i
  · intro h200 h429 hlt
    rw [show fetch opts env = fetchLoop opts env (opts.maxRetries + 1) 0 none
        from rfl,
      hskip,
      show opts.maxRetries + 1 - i = (opts.maxRetries - i) + 1 from by omega,
      fetchLoop_fatal opts env (opts.maxRetries - i) (0 + i)
        (skipLast env 0 i none) status hdr body (by simpa using hresp)
        h429 h200 hlt]
    simp only [Nat.zero_add, FetchResult.mk.injEq, true_and, and_true]
    exact preDelays_append_pre opts i

/-- Witness for the amended C3: a 404 is fatal on the first attempt with no
retry, and a 200 returns its body. -/
theorem claimC3_witness :
    fetch defaultFetchOptions (fun _ => .resp 404 "" [2]) =
      { res := .err (.httpStatus 404), sleeps := [], attempts := 1 } ∧
    fetch defaultFetchOptions (fun _ => .resp 200 "" [5]) =
      { res := .ok [5], sleeps := [], attempts := 1 } := by
  constructor
  · have h := (claimC3_amended_dispatch defaultFetchOptions
      (fun _ => .resp 404 "" [2]) 0 404 "" [2] (by omega)
      (by intro j hj; omega) rfl).2 (by omega) (by omega) (by omega)
    rw [h]
    decide
  · have h := (claimC3_amended_dispatch defaultFetchOptions
      (fun _ => .resp 200 "" [5]) 0 200 "" [5] (by omega)
      (by intro j hj; omega) rfl).1 rfl
    rw [h]
    decide

/-! Orchestrator embedding (src/internal/app/app.go). -/

/-- Modelled from the spec: `models.TimeRange` (the models package is not
under src/).  An enumerated string type with the four values 1H, 24H, 7D,
30D, in the cycling order used by `cycleTimeRange`. -/
inductive TimeRange where
  | r1H
  | r24H
  | r7D
  | r30D
deriving DecidableEq

/-- The underlying string value of a TimeRange (`string(m.timeRange)`). -/
def TimeRange.str : TimeRange → String
  | .r1H => "1H"
  | .r24H => "24H"
  | .r7D => "7D"
  | .r30D => "30D"

/-- Modelled from the spec: `models.Candle` (the models package is not under
src/); the fields used by app.go and chart.go are Open, High, Low, Close,
decimal prices embedded as rationals. -/
structure Candle where
  Open : ℚ
  High : ℚ
  Low : ℚ
  Close : ℚ
deriving DecidableEq

/-- Modelled from the spec: `models.Quote` (the models package is not under
src/); the fields used by watchlist.go. -/
structure StockQuote where
  Symbol : String
  Price : ℚ
  ChangePct : ℚ
deriving DecidableEq

/-- A watchlist row (`item` in watchlist.go). -/
structure WItem where
  symbol : String
  price : ℚ
  changePct : ℚ
deriving DecidableEq

/-- `Model.UpdatePriceChange` (watchlist.go lines 189-203): find the first
row with the given symbol, set its price to the current price, recompute its
percent change from start to current only when the start price is strictly
positive, then stop (`break`); every other row is left as it was. -/
def updatePriceChange (items : List WItem) (symbol : String)
    (currentPrice startPrice : ℚ) : List WItem :=
  match items with
  | [] => []
  | it :: rest =>
    if it.symbol = symbol then
      { it with
        price := currentPrice
        changePct := if 0 < startPrice then
            (currentPrice - startPrice) / startPrice * 100
          else it.changePct } :: rest
    else it :: updatePriceChange rest symbol currentPrice startPrice

/-- The `qmap` lookup of `Model.UpdateQuotes` (watchlist.go lines 171-175):
a Go map built by inserting the quotes in order, so the last quote for a
symbol wins. -/
def qlookup (qs : List StockQuote) (symbol : String) : Option StockQuote :=
  qs.foldl (fun acc q => if q.Symbol = symbol then some q else acc) none

/-- `Model.UpdateQuotes` (watchlist.go lines 167-186): every row whose
symbol has a quote takes that quote's price and percent change. -/
def updateQuotes (items : List WItem) (qs : List StockQuote) : List WItem :=
  items.map fun it =>
    match qlookup qs it.symbol with
    | some q => { it with price := q.Price, changePct := q.ChangePct }
    | none => it

/-- The chart widget state (chart.go `Model`), restricted to the fields the
orchestrator drives: the loaded series and its key, the loading, error and
stale flags, the retry-after countdown in milliseconds, and the chart type
index (0 = Line, 1 = Area, 2 = Candle). -/
structure ChartState where
  symbol : String
  tr : TimeRange
  data : List Candle
  loading : Bool
  err : Option FetchError
  stale : Bool
  retryAfter : Int
  ctype : Nat
deriving DecidableEq

/-- `chart.New()` (chart.go lines 37-42). -/
def chartNew : ChartState :=
  { symbol := ""
    tr := .r24H
    data := []
    loading := false
    err := none
    stale := false
    retryAfter := 0
    ctype := 0 }

/-- `Model.SetData` (chart.go lines 59-67). -/
def chartSetData (m : ChartState) (symbol : String) (tr : TimeRange)
    (data : List Candle) : ChartState :=
  { m with
    symbol := symbol
    tr := tr
    data := data
    loading := false
    err := none
    stale := false
    retryAfter := 0 }

/-- `Model.SetStale` (chart.go lines 69-74). -/
def chartSetStale (m : ChartState) (retryAfter : Int) : ChartState :=
  { m with
    stale := true
    retryAfter := retryAfter
    loading := false
    err := none }

/-- `Model.SetLoading` (chart.go line 76, always called with true). -/
def chartSetLoading (m : ChartState) : ChartState :=
  { m with loading := true }

/-- `Model.SetError` (chart.go lines 78-82). -/
def chartSetError (m : ChartState) (e : FetchError) : ChartState :=
  { m with err := some e, loading := false, stale := false }

/-- `Model.CycleChartType` (chart.go lines 84-86). -/
def chartCycleType (m : ChartState) : ChartState :=
  { m with ctype := (m.ctype + 1) % 3 }

/-- Commands emitted by `AppModel.Update`: provider fetches, the scheduled
rate-limit retry (`tea.Tick(retryAfter, ...)` producing a `retryHistoryMsg`,
delay a `time.Duration` in nanoseconds), and the refresh-ticker wait. -/
inductive Cmd where
  | fetchQuotes
  | fetchHistory (symbol : String) (tr : TimeRange)
  | scheduleRetry (symbol : String) (tr : TimeRange) (delayNs : Int)
  | waitTick
deriving DecidableEq

/-- Messages consumed by `AppModel.Update` (app.go).  `tickMsg`,
`quotesMsg`, `historyMsg` and `retryHistoryMsg` are the source's message
types; the key messages are the cases of the `tea.KeyMsg` switch
(`keySetRange` stands for the four identical cases for keys 1-4);
`mouseFooterClick` is a left press on the footer row.  User input that the
app's own switch does not capture is handled by the external bubbles list
widget, whose only effect on the modelled state is the resulting selected
symbol, so all such input (arrow keys, list clicks) is modelled as `userNav`
carrying the selection the widget ends up on.  Modelled from the spec: the
watchlist list widget is an external collaborator that only forwards input
events; non-input messages do not move its selection. -/
inductive Msg where
  | tick
  | quotes (qs : List StockQuote) (err : Option FetchError)
  | history (symbol : String) (tr : TimeRange) (data : List Candle)
      (err : Option FetchError)
  | retryHistory (symbol : String) (tr : TimeRange)
  | keyTab
  | keySetRange (tr : TimeRange)
  | keyR
  | keyC
  | keyQuestion
  | keyQuit
  | mouseFooterClick
  | userNav (newSel : String)
  | resize (w h : Nat)
deriving DecidableEq

/-- `AppModel` state driven by `Update`: active range, watchlist rows and
selection (`""` when the list is empty), the history cache keyed by
`symbol + "|" + range` (a Go map, modelled as an association list), the
chart state, the quote-error field `m.err`, the help-overlay flag and the
window size.  The footer widget holds no orchestrator state and is
omitted. -/
structure AppState where
  timeRange : TimeRange
  wlItems : List WItem
  wlSelected : String
  lastHistory : List (String × List Candle)
  chart : ChartState
  errField : Option FetchError
  helpVisible : Bool
  width : Nat
  height : Nat
deriving DecidableEq

/-- The cache key `sym + "|" + string(tr)` (app.go lines 228, 246, 264,
284, 332). -/
def cacheKey (symbol : String) (tr : TimeRange) : String :=
  symbol ++ "|" ++ tr.str

/-- Go map lookup on the association-list model of `m.lastHistory`. -/
def lookupKey (k : String) :
    List (String × List Candle) → Option (List Candle)
  | [] => none
  | kv :: rest => if kv.1 = k then some kv.2 else lookupKey k rest

/-- Go map insert (`m.lastHistory[cacheKey] = msg.data`): overwrite the
existing binding or append a new one. -/
def cacheInsert (k : String) (v : List Candle) :
    List (String × List Candle) → List (String × List Candle)
  | [] => [(k, v)]
  | kv :: rest =>
    if kv.1 = k then (k, v) :: rest else kv :: cacheInsert k v rest

/-- `cycleTimeRange` (app.go lines 299-308): advance to the next range in
the order 1H, 24H, 7D, 30D, wrapping around. -/
def cycleRange : TimeRange → TimeRange
  | .r1H => .r24H
  | .r24H => .r7D
  | .r7D => .r30D
  | .r30D => .r1H

/-- `refreshCurrentChart` (app.go lines 318-325): no selection means no
work; otherwise mark the chart loading and fetch the current pair,
regardless of the cache. -/
def refreshCurrentChart (s : AppState) : AppState × List Cmd :=
  if s.wlSelected = "" then (s, [])
  else ({ s with chart := chartSetLoading s.chart },
    [.fetchHistory s.wlSelected s.timeRange])

/-- `loadCurrentChart` (app.go lines 327-339): no selection means no work;
a cached current pair is presented with no fetch; otherwise mark loading
and fetch. -/
def loadCurrentChart (s : AppState) : AppState × List Cmd :=
  if s.wlSelected = "" then (s, [])
  else
    match lookupKey (cacheKey s.wlSelected s.timeRange) s.lastHistory with
    | some cached =>
      ({ s with
        chart := chartSetData s.chart s.wlSelected s.timeRange cached }, [])
    | none =>
      ({ s with chart := chartSetLoading s.chart },
        [.fetchHistory s.wlSelected s.timeRange])

/-- The selection-change tail of `Update` (app.go lines 278-291), run for
every message that does not return early: after the watchlist widget has
processed the message (leaving selection `newSel`), a changed non-empty
selection either presents the cached history for the new pair or marks the
chart loading and appends a history fetch. -/
def selTail (s : AppState) (newSel : String) (cmds : List Cmd) :
    AppState × List Cmd :=
  let oldSel := s.wlSelected
  let s₂ := { s with wlSelected := newSel }
  if oldSel ≠ newSel ∧ newSel ≠ "" then
    match lookupKey (cacheKey newSel s₂.timeRange) s₂.lastHistory with
    | some cached =>
      ({ s₂ with
        chart := chartSetData s₂.chart newSel s₂.timeRange cached }, cmds)
    | none =>
      ({ s₂ with chart := chartSetLoading s₂.chart },
        cmds ++ [.fetchHistory newSel s₂.timeRange])
  else (s₂, cmds)

/-- `errors.As(msg.err, &rateLimitErr)` (app.go lines 244-245): walk the
error wrap chain looking for a `RateLimitError`, returning its retry-after
duration when found. -/
def isRateLimited : FetchError → Option Int
  | .rateLimited d => some d
  | .exhausted _ e => isRateLimited e
  | _ => none

/-- The help-overlay branch of `AppModel.Update` (app.go lines 129-146):
while the overlay is visible every message is swallowed — `?` closes the
overlay, a resize records the new size, nothing else changes. -/
def updateHelp (s : AppState) (msg : Msg) : AppState × List Cmd :=
  match msg with
  | .keyQuestion => ({ s with helpVisible := false }, [])
  | .resize w h => ({ s with width := w, height := h }, [])
  | _ => (s, [])

/-- The main message switch of `AppModel.Update` (app.go lines 148-296),
reached when the help overlay is closed. -/
def updateMain (s : AppState) (msg : Msg) : AppState × List Cmd :=
  match msg with
  | .tick => selTail s s.wlSelected [.fetchQuotes, .waitTick]
  | .quotes qs err =>
    match err with
    | some e => selTail { s with errField := some e } s.wlSelected []
    | none =>
      let s₂ := { s with
        errField := none
        wlItems := updateQuotes s.wlItems qs }
      if s₂.wlSelected = "" then selTail s₂ s₂.wlSelected []
      else
        match lookupKey (cacheKey s₂.wlSelected s₂.timeRange)
            s₂.lastHistory with
        | some _ => selTail s₂ s₂.wlSelected []
        | none =>
          selTail { s₂ with chart := chartSetLoading s₂.chart }
            s₂.wlSelected [.fetchHistory s₂.wlSelected s₂.timeRange]
  | .retryHistory sym tr =>
    let s₂ := if s.wlSelected = sym ∧ s.timeRange = tr then
        { s with chart := chartSetLoading s.chart }
      else s
    selTail s₂ s₂.wlSelected [.fetchHistory sym tr]
  | .history sym tr data err =>
    match err with
    | some e =>
      match isRateLimited e with
      | some d =>
        let s₂ :=
          match lookupKey (cacheKey sym tr) s.lastHistory with
          | some cached =>
            if s.wlSelected = sym ∧ s.timeRange = tr then
              { s with
                chart := chartSetStale
                  (chartSetData s.chart sym tr cached) d }
            else s
          | none => { s with chart := chartSetError s.chart e }
        (s₂, [.scheduleRetry sym tr d])
      | none =>
        selTail { s with chart := chartSetError s.chart e } s.wlSelected []
    | none =>
      let s₂ := { s with
        lastHistory := cacheInsert (cacheKey sym tr) data s.lastHistory }
      let s₃ := if s₂.wlSelected = sym ∧ s₂.timeRange = tr then
          { s₂ with chart := chartSetData s₂.chart sym tr data }
        else s₂
      let s₄ :=
        match data with
        | d0 :: d1 :: ds =>
          { s₃ with
            wlItems := updatePriceChange s₃.wlItems sym
              (((d1 :: ds).getLastD d1).Close) d0.Close }
        | _ => s₃
      selTail s₄ s₄.wlSelected []
  | .keyTab =>
    loadCurrentChart { s with timeRange := cycleRange s.timeRange }
  | .keySetRange tr =>
    loadCurrentChart { s with timeRange := tr }
  | .keyR =>
    let t := refreshCurrentChart s
    (t.1, .fetchQuotes :: t.2)
  | .keyC => ({ s with chart := chartCycleType s.chart }, [])
  | .keyQuestion => ({ s with helpVisible := true }, [])
  | .keyQuit => (s, [])
  | .mouseFooterClick =>
    refreshCurrentChart { s with timeRange := cycleRange s.timeRange }
  | .userNav newSel => selTail s newSel []
  | .resize w h =>
    selTail { s with width := w, height := h } s.wlSelected []

/-- `AppModel.Update` (app.go lines 125-297) over the modelled messages:
the help-overlay gate, then the main switch.  The key messages, the footer
mouse click and the rate-limited history branch return early exactly as in
the source; every other message falls through to the selection-change tail
`selTail`.  The watchlist and chart sub-updates contribute no commands. -/
def update (s : AppState) (msg : Msg) : AppState × List Cmd :=
  if s.helpVisible then updateHelp s msg else updateMain s msg

lemma selTail_lastHistory (s : AppState) (n : String) (cmds : List Cmd) :
    (selTail s n cmds).1.lastHistory = s.lastHistory := by
  simp only [selTail]
  split
  · split <;> rfl
  · rfl

lemma loadCurrentChart_lastHistory (s : AppState) :
    (loadCurrentChart s).1.lastHistory = s.lastHistory := by
  simp only [loadCurrentChart]
  split
  · rfl
  · split <;> rfl

lemma refreshCurrentChart_lastHistory (s : AppState) :
    (refreshCurrentChart s).1.lastHistory = s.lastHistory := by
  simp only [refreshCurrentChart]
  split <;> rfl

lemma lookup_cacheInsert (k q : String) (v : List Candle) :
    ∀ c : List (String × List Candle),
      lookupKey q (cacheInsert k v c) =
        if q = k then some v else lookupKey q c := by
  intro c
  induction c with
  | nil =>
    by_cases h : q = k
    · subst h
      simp [cacheInsert, lookupKey]
    · have h₂ : ¬ k = q := fun h₃ => h h₃.symm
      simp [cacheInsert, lookupKey, h, h₂]
  | cons kv rest ih =>
    by_cases hk : kv.1 = k
    · by_cases hq : q = k
      · subst hq
        simp [cacheInsert, lookupKey, hk]
      · have h₂ : ¬ k = q := fun h₃ => hq h₃.symm
        have h₃ : ¬ kv.1 = q := by rw [hk]; exact h₂
        simp [cacheInsert, lookupKey, hk, hq, h₂, h₃]
    · by_cases hkvq : kv.1 = q
      · have hq : ¬ q = k := fun h₃ => hk (by rw [hkvq, h₃])
        simp [cacheInsert, lookupKey, hk, hkvq, hq]
      · simp [cacheInsert, lookupKey, hk, hkvq, ih]

lemma updateHelp_lastHistory (s : AppState) (msg : Msg) :
    (updateHelp s msg).1.lastHistory = s.lastHistory := by
  cases msg <;> rfl

lemma update_lastHistory (s : AppState) (msg : Msg) :
    (update s msg).1.lastHistory = s.lastHistory ∨
    ∃ sym tr data, msg = .history sym tr data none ∧
      (update s msg).1.lastHistory =
        cacheInsert (cacheKey sym tr) data s.lastHistory := by
  by_cases hh : s.helpVisible
  · left
    simp [update, updateMain, hh, updateHelp_lastHistory]
  · cases msg with
    | tick => left; simp [update, updateMain, hh, selTail_lastHistory]
    | quotes qs err =>
      left
      cases err with
      | some e => simp [update, updateMain, hh, selTail_lastHistory]
      | none =>
        simp only [update, updateMain, hh, Bool.false_eq_true, if_false]
        split
        · rw [selTail_lastHistory]
        · split <;> rw [selTail_lastHistory]
    | history sym tr data err =>
      cases err with
      | some e =>
        left
        cases hru : isRateLimited e with
        | some d =>
          simp only [update, updateMain, hh, Bool.false_eq_true, if_false, hru]
          cases hlk : lookupKey (cacheKey sym tr) s.lastHistory with
          | some cached =>
            by_cases hsel : s.wlSelected = sym ∧ s.timeRange = tr <;>
              simp [hlk, hsel]
          | none => simp [hlk]
        | none => simp [update, updateMain, hh, hru, selTail_lastHistory]
      | none =>
        right
        refine ⟨sym, tr, data, rfl, ?_⟩
        rcases data with _ | ⟨d0, _ | ⟨d1, ds⟩⟩ <;>
          by_cases hsel : s.wlSelected = sym ∧ s.timeRange = tr <;>
            simp [update, updateMain, hh, hsel, selTail_lastHistory]
    | retryHistory sym tr =>
      left
      simp only [update, updateMain, hh, Bool.false_eq_true, if_false]
      split <;> rw [selTail_lastHistory]
    | keyTab => left; simp [update, updateMain, hh, loadCurrentChart_lastHistory]
    | keySetRange tr => left; simp [update, updateMain, hh, loadCurrentChart_lastHistory]
    | keyR => left; simp [update, updateMain, hh, refreshCurrentChart_lastHistory]
    | keyC => left; simp [update, updateMain, hh]
    | keyQuestion => left; simp [update, updateMain, hh]
    | keyQuit => left; simp [update, updateMain, hh]
    | mouseFooterClick =>
      left; simp [update, updateMain, hh, refreshCurrentChart_lastHistory]
    | userNav newSel => left; simp [update, updateMain, hh, selTail_lastHistory]
    | resize w h => left; simp [update, updateMain, hh, selTail_lastHistory]

/-- C7: History-cache invariant, preserved by every event: for every key,
its cache entry is unchanged by the event, or the event is a successful
history arrival for exactly that key and the entry now holds that arrival's
data.  Hence a key is present only after a successful fetch for that exact
pair, no entry is ever evicted, and an existing entry changes only when a
newer successful fetch for the same key overwrites it — failed (in
particular rate-limited) arrivals never discard cached data. -/
theorem claimC7_cache_invariant (s : AppState) (msg : Msg) (k : String) :
    lookupKey k (update s msg).1.lastHistory = lookupKey k s.lastHistory ∨
    ∃ sym tr data, msg = .history sym tr data none ∧ k = cacheKey sym tr ∧
      lookupKey k (update s msg).1.lastHistory = some data := by
  rcases update_lastHistory s msg with h | ⟨sym, tr, data, hmsg, h⟩
  · left; rw [h]
  · by_cases hk : k = cacheKey sym tr
    · right
      exact ⟨sym, tr, data, hmsg, hk,
        by rw [h, lookup_cacheInsert, if_pos hk]⟩
    · left
      rw [h, lookup_cacheInsert, if_neg hk]

/-- C4: When a history result arrives with a RateLimited error (help overlay
closed): a retry command for that (symbol, range) with the signaled delay is
emitted unconditionally; if the cache holds the key and it equals the
current selection, the cached series is presented stale with the retry
deadline; if no cache entry exists, an error is presented instead. -/
theorem claimC4_rate_limited_history (s : AppState) (sym : String)
    (tr : TimeRange) (data : List Candle) (e : FetchError) (d : Int)
    (hhelp : s.helpVisible = false)
    (hrl : isRateLimited e = some d) :
    ((update s (.history sym tr data (some e))).2 =
      [Cmd.scheduleRetry sym tr d]) ∧
    (∀ cached, lookupKey (cacheKey sym tr) s.lastHistory = some cached →
      s.wlSelected = sym → s.timeRange = tr →
      (update s (.history sym tr data (some e))).1.chart =
        chartSetStale (chartSetData s.chart sym tr cached) d) ∧
    (lookupKey (cacheKey sym tr) s.lastHistory = none →
      (update s (.history sym tr data (some e))).1.chart =
        chartSetError s.chart e) := by
  refine ⟨?_, ?_, ?_⟩
  · cases hlk : lookupKey (cacheKey sym tr) s.lastHistory with
    | some cached =>
      by_cases hsel : s.wlSelected = sym ∧ s.timeRange = tr <;>
        simp [update, updateMain, hhelp, hrl, hlk, hsel]
    | none => simp [update, updateMain, hhelp, hrl, hlk]
  · intro cached hlk hsel htr
    simp [update, updateMain, hhelp, hrl, hlk, hsel, htr]
  · intro hlk
    simp [update, updateMain, hhelp, hrl, hlk]

/-- A cached candle used in concrete orchestrator states. -/
def candA : Candle :=
  { Open := 1, High := 2, Low := 1, Close := 2 }

/-- Concrete state for the C4 witness: "AAPL" at 24H selected, with a cached
series for that pair. -/
def wC4 : AppState :=
  { timeRange := .r24H
    wlItems := []
    wlSelected := "AAPL"
    lastHistory := [("AAPL|24H", [candA])]
    chart := chartNew
    errField := none
    helpVisible := false
    width := 80
    height := 24 }

/-- Witness for C4: a RateLimited{10s} (= 10000000000 ns) history failure
for the selected, cached pair "AAPL"/24H schedules a 10s retry and presents
the cached series marked stale. -/
theorem claimC4_witness :
    (update wC4
        (.history "AAPL" .r24H [] (some (.rateLimited 10000000000)))).2 =
      [Cmd.scheduleRetry "AAPL" .r24H 10000000000] ∧
    (update wC4
        (.history "AAPL" .r24H []
          (some (.rateLimited 10000000000)))).1.chart =
      chartSetStale (chartSetData wC4.chart "AAPL" .r24H [candA])
        10000000000 := by
  have h := claimC4_rate_limited_history wC4 "AAPL" .r24H []
    (.rateLimited 10000000000) 10000000000 rfl rfl
  exact ⟨h.1, h.2.1 [candA] (by decide) rfl rfl⟩

/-- Concrete state for the C5 counterexample: selection "A", active range
1H, and a cached series for ("A", 24H) — the pair the footer click cycles
to. -/
def cexC5 : AppState :=
  { timeRange := .r1H
    wlItems := []
    wlSelected := "A"
    lastHistory := [("A|24H", [candA])]
    chart := chartNew
    errField := none
    helpVisible := false
    width := 80
    height := 24 }

/-- C5 as stated is false: the footer mouse click is a user action that
makes the cached pair ("A", 24H) the displayed one, yet it issues a history
fetch and presents no cached data — the chart is put into loading state
instead. -/
theorem claimC5_counterexample :
    (update cexC5 .mouseFooterClick).2 = [Cmd.fetchHistory "A" .r24H] ∧
    (update cexC5 .mouseFooterClick).1.timeRange = .r24H ∧
    (update cexC5 .mouseFooterClick).1.chart.loading = true ∧
    (update cexC5 .mouseFooterClick).1.chart.data = [] := by
  refine ⟨?_, ?_, ?_, ?_⟩ <;> decide

/-- C5 (amended): for every cached (symbol, range) key, the keyboard-driven
actions that make that pair the displayed one — watchlist navigation to
that symbol at the active range, the tab range cycle, and the direct range
keys — present the cached history immediately and issue zero fetches; the
footer mouse-click range cycle, by contrast, always refetches (see the
counterexample). -/
theorem claimC5_amended_cache_hit (s : AppState)
    (hhelp : s.helpVisible = false) :
    (∀ (n : String) (cached : List Candle), n ≠ "" → n ≠ s.wlSelected →
      lookupKey (cacheKey n s.timeRange) s.lastHistory = some cached →
      update s (.userNav n) =
        ({ s with
            wlSelected := n
            chart := chartSetData s.chart n s.timeRange cached }, [])) ∧
    (∀ cached : List Candle, s.wlSelected ≠ "" →
      lookupKey (cacheKey s.wlSelected (cycleRange s.timeRange))
        s.lastHistory = some cached →
      update s .keyTab =
        ({ s with
            timeRange := cycleRange s.timeRange
            chart := chartSetData s.chart s.wlSelected
              (cycleRange s.timeRange) cached }, [])) ∧
    (∀ (tr : TimeRange) (cached : List Candle), s.wlSelected ≠ "" →
      lookupKey (cacheKey s.wlSelected tr) s.lastHistory = some cached →
      update s (.keySetRange tr) =
        ({ s with
            timeRange := tr
            chart := chartSetData s.chart s.wlSelected tr cached }, [])) := by
  refine ⟨?_, ?_, ?_⟩
  · intro n cached hn hne hlk
    have h₁ : ¬ s.wlSelected = n := fun h => hne h.symm
    simp [update, updateMain, hhelp, selTail, h₁, hn, hlk]
  · intro cached hsel hlk
    simp [update, updateMain, hhelp, loadCurrentChart, hsel, hlk]
  · intro tr cached hsel hlk
    simp [update, updateMain, hhelp, loadCurrentChart, hsel, hlk]

/-- Concrete state for the C5 witness: selection "B", range 1H, with a
cached series for ("A", 1H). -/
def wC5 : AppState :=
  { timeRange := .r1H
    wlItems := []
    wlSelected := "B"
    lastHistory := [("A|1H", [candA])]
    chart := chartNew
    errField := none
    helpVisible := false
    width := 80
    height := 24 }

/-- Witness for the amended C5: navigating the watchlist to "A" with
("A", 1H) cached presents the cached series and emits no command. -/
theorem claimC5_witness :
    update wC5 (.userNav "A") =
      ({ wC5 with
          wlSelected := "A"
          chart := chartSetData wC5.chart "A" .r1H [candA] }, []) := by
  have h := (claimC5_amended_cache_hit wC5 rfl).1 "A" [candA]
    (by decide) (by decide) (by decide)
  exact h

/-- Concrete state for the C6 counterexample: selection "A"; a history
failure arrives for the unrelated symbol "B". -/
def cexC6 : AppState :=
  { timeRange := .r24H
    wlItems := []
    wlSelected := "A"
    lastHistory := []
    chart := chartNew
    errField := none
    helpVisible := false
    width := 80
    height := 24 }

/-- C6 as stated is false: a non-RateLimited history failure for
("B", 24H), which is not the current selection ("A"), still presents its
error on the chart pane. -/
theorem claimC6_counterexample :
    cexC6.wlSelected ≠ "B" ∧
    (update cexC6
        (.history "B" .r24H [] (some (.httpStatus 500)))).1.chart.err =
      some (.httpStatus 500) := by
  refine ⟨?_, ?_⟩ <;> decide

/-- C6 (amended): a non-rate-limited history failure presents its error on
the chart pane unconditionally — whether or not the failing (symbol, range)
is the current selection — and emits no command (in particular no automatic
retry); moreover no failed history arrival, rate-limited or not, modifies
the cache. -/
theorem claimC6_amended_history_failure (s : AppState) (sym : String)
    (tr : TimeRange) (data : List Candle)
    (hhelp : s.helpVisible = false) :
    (∀ e, (update s (.history sym tr data (some e))).1.lastHistory =
      s.lastHistory) ∧
    (∀ e, isRateLimited e = none →
      (update s (.history sym tr data (some e))).1.chart =
        chartSetError s.chart e ∧
      (update s (.history sym tr data (some e))).2 = []) := by
  constructor
  · intro e
    rcases update_lastHistory s (.history sym tr data (some e)) with
      h | ⟨sym₂, tr₂, data₂, hmsg, _⟩
    · exact h
    · simp at hmsg
  · intro e hnr
    constructor
    · simp [update, updateMain, hhelp, hnr, selTail]
    · simp [update, updateMain, hhelp, hnr, selTail]

/-- Witness for the amended C6: in the C6 counterexample state, the failed
arrival for ("B", 24H) leaves the (empty) cache unchanged, sets the chart
error, and emits nothing. -/
theorem claimC6_witness :
    (update cexC6
        (.history "B" .r24H [] (some (.httpStatus 500)))).1.lastHistory =
      cexC6.lastHistory ∧
    (update cexC6
        (.history "B" .r24H [] (some (.httpStatus 500)))).1.chart =
      chartSetError cexC6.chart (.httpStatus 500) ∧
    (update cexC6 (.history "B" .r24H [] (some (.httpStatus 500)))).2 =
      [] := by
  have h := claimC6_amended_history_failure cexC6 "B" .r24H [] rfl
  have h₂ := h.2 (.httpStatus 500) rfl
  exact ⟨h.1 (.httpStatus 500), h₂.1, h₂.2⟩

/-- C10: For a history-derived watchlist update, the first row matching the
symbol has its price set to the current price unconditionally, while its
percent change is recomputed as (current − start)/start × 100 only when the
start price is strictly positive and kept unchanged otherwise (so the
division never runs on a non-positive divisor); every other row — in
particular every row for another symbol — is unchanged. -/
theorem claimC10_update_price_change (symbol : String) (cur start : ℚ)
    (it : WItem) (hit : it.symbol = symbol) :
    ∀ (front post : List WItem), (∀ x ∈ front, x.symbol ≠ symbol) →
      updatePriceChange (front ++ it :: post) symbol cur start =
        front ++ ({ it with
          price := cur
          changePct := if 0 < start then (cur - start) / start * 100
            else it.changePct } :: post) := by
  intro front
  induction front with
  | nil =>
    intro post _
    simp [updatePriceChange, hit]
  | cons p ps ih =>
    intro post hfront
    have hp : ¬ p.symbol = symbol := hfront p (by simp)
    have ih₂ := ih post (fun x hx => hfront x (by simp [hx]))
    simp only [List.cons_append, updatePriceChange, if_neg hp]
    exact congrArg (fun l => p :: l) ih₂

/-- Witness for C10: with rows A and B, updating B with start price 0
changes only B's price and leaves its percent change alone (the division is
skipped); with start price 4 it also recomputes the percent change to
(5 − 4)/4 × 100 = 25; row A is untouched in both cases. -/
theorem claimC10_witness :
    updatePriceChange
        [{ symbol := "A", price := 1, changePct := 2 },
          { symbol := "B", price := 3, changePct := 4 }] "B" 5 0 =
      [{ symbol := "A", price := 1, changePct := 2 },
        { symbol := "B", price := 5, changePct := 4 }] ∧
    updatePriceChange
        [{ symbol := "A", price := 1, changePct := 2 },
          { symbol := "B", price := 3, changePct := 4 }] "B" 5 4 =
      [{ symbol := "A", price := 1, changePct := 2 },
        { symbol := "B", price := 5, changePct := 25 }] := by
  constructor
  · have h := claimC10_update_price_change "B" 5 0
      { symbol := "B", price := 3, changePct := 4 } rfl
      [{ symbol := "A", price := 1, changePct := 2 }] []
      (by intro x hx; simp at hx; subst hx; decide)
    have h₂ : updatePriceChange
        [{ symbol := "A", price := 1, changePct := 2 },
          { symbol := "B", price := 3, changePct := 4 }] "B" 5 0 =
        [{ symbol := "A", price := 1, changePct := 2 },
          { symbol := "B", price := 5,
            changePct := if (0 : ℚ) < 0 then ((5 : ℚ) - 0) / 0 * 100
              else 4 }] := h
    rw [h₂]
    norm_num
  · have h := claimC10_update_price_change "B" 5 4
      { symbol := "B", price := 3, changePct := 4 } rfl
      [{ symbol := "A", price := 1, changePct := 2 }] []
      (by intro x hx; simp at hx; subst hx; decide)
    have h₂ : updatePriceChange
        [{ symbol := "A", price := 1, changePct := 2 },
          { symbol := "B", price := 3, changePct := 4 }] "B" 5 4 =
        [{ symbol := "A", price := 1, changePct := 2 },
          { symbol := "B", price := 5,
            changePct := if (0 : ℚ) < 4 then ((5 : ℚ) - 4) / 4 * 100
              else 4 }] := h
    rw [h₂]
    norm_num

/-! Rendering engine numeric core (src/internal/ui/chart/chart.go). -/

/-- The min scan of `Model.render` (chart.go lines 122-131): starting from
the first close (`closes[0]`; render is reached only with nonempty data,
modelled by `headD 0`), a close replaces the minimum only when it is
strictly positive and strictly smaller. -/
def minClose (closes : List ℚ) : ℚ :=
  closes.foldl (fun m p => if 0 < p ∧ p < m then p else m) (closes.headD 0)

/-- The max scan of `Model.render`: starting from the first close, any
strictly larger close replaces the maximum. -/
def maxClose (closes : List ℚ) : ℚ :=
  closes.foldl (fun m p => if m < p then p else m) (closes.headD 0)

/-- The spread synthesis of `Model.render` (chart.go lines 132-135), over
exact rationals (float64 in Go): spread = max − min, replaced by 1% of the
max when zero. -/
def synthSpread (minP maxP : ℚ) : ℚ :=
  if maxP - minP = 0 then maxP * (1 / 100) else maxP - minP

/-- The padded lower bound (chart.go line 136): min − 5% of the spread. -/
def padMinP (minP maxP : ℚ) : ℚ :=
  minP - synthSpread minP maxP * (5 / 100)

/-- The padded upper bound (chart.go line 137): max + 5% of the spread. -/
def padMaxP (minP maxP : ℚ) : ℚ :=
  maxP + synthSpread minP maxP * (5 / 100)

/-- The spread recomputed from the padded bounds (chart.go line 138). -/
def padSpread (minP maxP : ℚ) : ℚ :=
  padMaxP minP maxP - padMinP minP maxP

/-- Go's `int(x)` conversion on float64: truncation toward zero. -/
def goTrunc (q : ℚ) : ℤ :=
  if 0 ≤ q then ⌊q⌋ else ⌈q⌉

/-- The row mapping `toRow` of `Model.render` (chart.go lines 180-189):
truncate (maxP − price) / spread × (chartH − 1) to an int and clamp it into
[0, chartH − 1]. -/
def toRow (maxP spread : ℚ) (chartH : Nat) (price : ℚ) : ℤ :=
  let r := goTrunc ((maxP - price) / spread * ((chartH : ℚ) - 1))
  if r < 0 then 0
  else if (chartH : ℤ) ≤ r then (chartH : ℤ) - 1
  else r

lemma goTrunc_intCast (n : ℤ) : goTrunc (n : ℚ) = n := by
  unfold goTrunc
  by_cases h : 0 ≤ (n : ℚ)
  · rw [if_pos h, Int.floor_intCast]
  · rw [if_neg h, Int.ceil_intCast]

/-- C8: In the shared scaling step of `Model.render`: when the computed min
and max close are equal, a spread of 1% of the max close is synthesized;
both bounds are padded outward by 5% of the spread and the spread is
recomputed from the padded bounds; and for every non-degenerate series
(positive padded spread) the row mapping sends the padded maximum to row 0
and the padded minimum to row chartH − 1. -/
theorem claimC8_scaling (closes : List ℚ) (chartH : Nat)
    (hh : 1 ≤ chartH) :
    (minClose closes = maxClose closes →
      synthSpread (minClose closes) (maxClose closes) =
        maxClose closes * (1 / 100)) ∧
    (padMaxP (minClose closes) (maxClose closes) =
        maxClose closes +
          synthSpread (minClose closes) (maxClose closes) * (5 / 100) ∧
      padMinP (minClose closes) (maxClose closes) =
        minClose closes -
          synthSpread (minClose closes) (maxClose closes) * (5 / 100) ∧
      padSpread (minClose closes) (maxClose closes) =
        padMaxP (minClose closes) (maxClose closes) -
          padMinP (minClose closes) (maxClose closes)) ∧
    (0 < padSpread (minClose closes) (maxClose closes) →
      toRow (padMaxP (minClose closes) (maxClose closes))
          (padSpread (minClose closes) (maxClose closes)) chartH
          (padMaxP (minClose closes) (maxClose closes)) = 0 ∧
      toRow (padMaxP (minClose closes) (maxClose closes))
          (padSpread (minClose closes) (maxClose closes)) chartH
          (padMinP (minClose closes) (maxClose closes)) =
        (chartH : ℤ) - 1) := by
  refine ⟨?_, ⟨rfl, rfl, rfl⟩, ?_⟩
  · intro h
    simp [synthSpread, h]
  · intro hpos
    have hs : padSpread (minClose closes) (maxClose closes) ≠ 0 :=
      ne_of_gt hpos
    constructor
    · simp only [toRow]
      rw [sub_self, zero_div, zero_mul,
        show goTrunc 0 = 0 from by unfold goTrunc; simp]
      rw [if_neg (by omega), if_neg (by omega)]
    · simp only [toRow]
      rw [show padMaxP (minClose closes) (maxClose closes) -
            padMinP (minClose closes) (maxClose closes) =
          padSpread (minClose closes) (maxClose closes) from rfl,
        div_self hs, one_mul,
        show ((chartH : ℚ) - 1) = (((chartH : ℤ) - 1 : ℤ) : ℚ) from by
          push_cast; ring,
        goTrunc_intCast]
      rw [if_neg (by omega), if_neg (by omega)]

/-- Witness for C8: the two-point series 1, 2 on a 10-row canvas has padded
bounds 0.95 and 2.05, padded spread 1.1 > 0, and the row mapping sends the
padded maximum to row 0 and the padded minimum to row 9. -/
theorem claimC8_witness :
    toRow (padMaxP (minClose [1, 2]) (maxClose [1, 2]))
        (padSpread (minClose [1, 2]) (maxClose [1, 2])) 10
        (padMaxP (minClose [1, 2]) (maxClose [1, 2])) = 0 ∧
    toRow (padMaxP (minClose [1, 2]) (maxClose [1, 2]))
        (padSpread (minClose [1, 2]) (maxClose [1, 2])) 10
        (padMinP (minClose [1, 2]) (maxClose [1, 2])) = 9 := by
  have h := (claimC8_scaling [1, 2] 10 (by omega)).2.2 (by
    norm_num [padSpread, padMaxP, padMinP, synthSpread, minClose, maxClose])
  refine ⟨h.1, ?_⟩
  rw [h.2]
  decide

/-- `candlesPerCol` of the Candle branch (chart.go line 238): max(1, n /
chartW) with integer division. -/
def candlesPerCol (n chartW : Nat) : Nat :=
  max 1 (n / chartW)

/-- The bucket of source candles drawn in a given column (chart.go lines
239-242): the slice from col·cpc of length cpc, truncated at the end of the
data (`end = min(start+candlesPerCol, n)`); empty once `start ≥ n`. -/
def bucketAt (data : List Candle) (chartW col : Nat) : List Candle :=
  (data.drop (col * candlesPerCol data.length chartW)).take
    (candlesPerCol data.length chartW)

/-- The high scan of a bucket (chart.go lines 248-253): start from the
first element's high, replace on strictly larger highs. -/
def bucketHigh (c0 : Candle) (rest : List Candle) : ℚ :=
  rest.foldl (fun h c => if h < c.High then c.High else h) c0.High

/-- The low scan of a bucket (chart.go lines 249-257): start from the first
element's low — with no positivity check on it — and replace only on a
strictly smaller, strictly positive low. -/
def bucketLowGo (c0 : Candle) (rest : List Candle) : ℚ :=
  rest.foldl (fun l c => if c.Low < l ∧ 0 < c.Low then c.Low else l) c0.Low

/-- The per-bucket statistics of the Candle branch (chart.go lines
244-259): open from the first element, close from the last, the high and
low scans, up iff close ≥ open. -/
structure BucketStat where
  bOpen : ℚ
  bClose : ℚ
  bHigh : ℚ
  bLow : ℚ
  isUp : Bool
deriving DecidableEq

/-- The statistics computed for a bucket; `none` for the empty bucket (the
source `break`s before computing anything once `start ≥ n`). -/
def bucketStats : List Candle → Option BucketStat
  | [] => none
  | c0 :: rest =>
    some { bOpen := c0.Open
           bClose := (rest.getLastD c0).Close
           bHigh := bucketHigh c0 rest
           bLow := bucketLowGo c0 rest
           isUp := decide (c0.Open ≤ (rest.getLastD c0).Close) }

/-- Stated from the claim's words, for comparison with `bucketLowGo`: the
minimum over the strictly-positive lows of the bucket, `none` when the
bucket has no strictly-positive low. -/
def bucketLowSpec (b : List Candle) : Option ℚ :=
  match (b.map Candle.Low).filter (fun l => decide (0 < l)) with
  | [] => none
  | l :: ls => some (ls.foldl min l)

/-- First candle of the C9 counterexample bucket: low 0 (a missing/invalid
low in the claim's reading). -/
def cexCandle0 : Candle :=
  { Open := 5, High := 6, Low := 0, Close := 5 }

/-- Second candle of the C9 counterexample bucket: low 4. -/
def cexCandle4 : Candle :=
  { Open := 5, High := 7, Low := 4, Close := 6 }

/-- C9 as stated is false: for the two-candle series with lows 0 and 4
drawn at width 1 (bucket size max(1, 2/1) = 2, one bucket holding both
candles), the code's bucket low is 0 — the non-positive first low is used
as the starting value without any positivity check — while the minimum
over the strictly-positive lows of the bucket is 4. -/
theorem claimC9_counterexample :
    bucketAt [cexCandle0, cexCandle4] 1 0 = [cexCandle0, cexCandle4] ∧
    (bucketStats (bucketAt [cexCandle0, cexCandle4] 1 0)).map
        BucketStat.bLow = some 0 ∧
    bucketLowSpec (bucketAt [cexCandle0, cexCandle4] 1 0) = some 4 := by
  refine ⟨?_, ?_, ?_⟩ <;> decide

lemma foldl_max_spec :
    ∀ (l : List ℚ) (init : ℚ),
      (l.foldl (fun m p => if m < p then p else m) init = init ∨
        l.foldl (fun m p => if m < p then p else m) init ∈ l) ∧
      init ≤ l.foldl (fun m p => if m < p then p else m) init ∧
      ∀ p ∈ l, p ≤ l.foldl (fun m p => if m < p then p else m) init := by
  intro l
  induction l with
  | nil => intro init; simp
  | cons q l ih =>
    intro init
    by_cases h : init < q
    · have h₂ := ih q
      simp only [List.foldl_cons, if_pos h]
      refine ⟨?_, ?_, ?_⟩
      · rcases h₂.1 with h₃ | h₃
        · right; simp [h₃]
        · right; simp [h₃]
      · exact le_trans (le_of_lt h) h₂.2.1
      · intro p hp
        rcases List.mem_cons.mp hp with rfl | hp₂
        · exact h₂.2.1
        · exact h₂.2.2 p hp₂
    · have h₂ := ih init
      simp only [List.foldl_cons, if_neg h]
      refine ⟨?_, ?_, ?_⟩
      · rcases h₂.1 with h₃ | h₃
        · left; exact h₃
        · right; simp [h₃]
      · exact h₂.2.1
      · intro p hp
        rcases List.mem_cons.mp hp with rfl | hp₂
        · exact le_trans (not_lt.mp h) h₂.2.1
        · exact h₂.2.2 p hp₂

lemma foldl_low_spec :
    ∀ (l : List ℚ) (init : ℚ),
      (l.foldl (fun m p => if p < m ∧ 0 < p then p else m) init = init ∨
        (l.foldl (fun m p => if p < m ∧ 0 < p then p else m) init ∈ l ∧
          0 < l.foldl (fun m p => if p < m ∧ 0 < p then p else m) init)) ∧
      l.foldl (fun m p => if p < m ∧ 0 < p then p else m) init ≤ init ∧
      ∀ p ∈ l, 0 < p →
        l.foldl (fun m p => if p < m ∧ 0 < p then p else m) init ≤ p := by
  intro l
  induction l with
  | nil => intro init; simp
  | cons q l ih =>
    intro init
    by_cases h : q < init ∧ 0 < q
    · have h₂ := ih q
      simp only [List.foldl_cons, if_pos h]
      refine ⟨?_, ?_, ?_⟩
      · rcases h₂.1 with h₃ | h₃
        · right
          exact ⟨by simp [h₃], by rw [h₃]; exact h.2⟩
        · right
          exact ⟨by simp [h₃.1], h₃.2⟩
      · exact le_trans h₂.2.1 (le_of_lt h.1)
      · intro p hp hp₀
        rcases List.mem_cons.mp hp with rfl | hp₂
        · exact h₂.2.1
        · exact h₂.2.2 p hp₂ hp₀
    · have h₂ := ih init
      simp only [List.foldl_cons, if_neg h]
      refine ⟨?_, ?_, ?_⟩
      · rcases h₂.1 with h₃ | h₃
        · left; exact h₃
        · right; exact ⟨by simp [h₃.1], h₃.2⟩
      · exact h₂.2.1
      · intro p hp hp₀
        rcases List.mem_cons.mp hp with rfl | hp₂
        · have hinit : init ≤ p := by
            by_contra hcon
            exact h ⟨lt_of_not_le hcon, hp₀⟩
          exact le_trans h₂.2.1 hinit
        · exact h₂.2.2 p hp₂ hp₀

lemma getLast?_cons_getLastD (c0 : Candle) :
    ∀ rest : List Candle, (c0 :: rest).getLast? = some (rest.getLastD c0) := by
  intro rest
  induction rest generalizing c0 with
  | nil => rfl
  | cons c1 rest ih =>
    rw [List.getLast?_cons_cons, ih c1, List.getLastD_cons]

/-- C9 (amended): for every nonempty bucket of the partition (bucket size
max(1, n/width)): the bucket's open equals its first element's open, its
close equals its last element's close, its high is the maximum high over
the bucket, it is drawn up iff close ≥ open, and its low is the result of
the source's scan: it never exceeds the first element's low (which enters
the scan regardless of sign) nor any strictly-positive low of the rest of
the bucket, and it is either the first element's low or one of the
strictly-positive lows of the rest — non-positive lows after the first
element are excluded, but a non-positive first low is not. -/
theorem claimC9_amended_buckets (data : List Candle) (chartW col : Nat)
    (c0 : Candle) (rest : List Candle)
    (hb : bucketAt data chartW col = c0 :: rest) :
    ∃ stat, bucketStats (bucketAt data chartW col) = some stat ∧
      stat.bOpen = c0.Open ∧
      (∃ last, (c0 :: rest).getLast? = some last ∧
        stat.bClose = last.Close) ∧
      (stat.bHigh ∈ (c0 :: rest).map Candle.High ∧
        ∀ c ∈ c0 :: rest, c.High ≤ stat.bHigh) ∧
      ((stat.bLow = c0.Low ∨
          (stat.bLow ∈ rest.map Candle.Low ∧ 0 < stat.bLow)) ∧
        stat.bLow ≤ c0.Low ∧
        ∀ c ∈ rest, 0 < c.Low → stat.bLow ≤ c.Low) ∧
      (stat.isUp = true ↔ stat.bOpen ≤ stat.bClose) := by
  rw [hb]
  refine ⟨_, rfl, rfl, ⟨(rest.getLastD c0), getLast?_cons_getLastD c0 rest,
    rfl⟩, ?_, ?_, by simp [bucketStats]⟩
  · have hmax := foldl_max_spec (rest.map Candle.High) c0.High
    have heq : bucketHigh c0 rest =
        (rest.map Candle.High).foldl (fun m p => if m < p then p else m)
          c0.High := by
      rw [List.foldl_map]
      rfl
    constructor
    · show bucketHigh c0 rest ∈ (c0 :: rest).map Candle.High
      rw [heq]
      rcases hmax.1 with h₃ | h₃
      · simp [h₃]
      · simp only [List.map_cons, List.mem_cons]
        right
        exact h₃
    · intro c hc
      show c.High ≤ bucketHigh c0 rest
      rw [heq]
      rcases List.mem_cons.mp hc with rfl | hc₂
      · exact hmax.2.1
      · exact hmax.2.2 c.High (List.mem_map_of_mem Candle.High hc₂)
  · have hlow := foldl_low_spec (rest.map Candle.Low) c0.Low
    have heq : bucketLowGo c0 rest =
        (rest.map Candle.Low).foldl
          (fun m p => if p < m ∧ 0 < p then p else m) c0.Low := by
      rw [List.foldl_map]
      rfl
    refine ⟨?_, ?_, ?_⟩
    · show bucketLowGo c0 rest = c0.Low ∨ _
      rw [heq]
      rcases hlow.1 with h₃ | h₃
      · left; exact h₃
      · right; exact ⟨h₃.1, h₃.2⟩
    · show bucketLowGo c0 rest ≤ c0.Low
      rw [heq]
      exact hlow.2.1
    · intro c hc hc₀
      show bucketLowGo c0 rest ≤ c.Low
      rw [heq]
      exact hlow.2.2 c.Low (List.mem_map_of_mem Candle.Low hc) hc₀

/-- Witness for the amended C9: the counterexample bucket [low 0, low 4]
has open 5, close 6 (the last element's), high 7, low 0 (the first
element's non-positive low), and is drawn up since 6 ≥ 5. -/
theorem claimC9_witness :
    ∃ stat, bucketStats (bucketAt [cexCandle0, cexCandle4] 1 0) =
        some stat ∧
      stat.bOpen = cexCandle0.Open ∧ stat.bLow ≤ cexCandle0.Low ∧
      (∀ c ∈ [cexCandle4], 0 < c.Low → stat.bLow ≤ c.Low) ∧
      (stat.isUp = true ↔ stat.bOpen ≤ stat.bClose) := by
  obtain ⟨stat, h₁, h₂, _, _, hlow, hup⟩ :=
    claimC9_amended_buckets [cexCandle0, cexCandle4] 1 0 cexCandle0
      [cexCandle4] (by decide)
  exact ⟨stat, h₁, h₂, hlow.2.1, hlow.2.2, hup⟩

end Stock
